import Mathlib

/-!
# mac_secure: taint registry, ancestry walk and the two MAC hooks

A shallow embedding of `src/simple_module.c`.

* The global `taint_head` list is passed explicitly: every function that reads it takes it
  as its first argument, every function that may write it returns the new list.
* `struct proc` and `struct proc *` are a pair of mutually inductive types; a value of
  `proc_ptr` is either `NULL` or points at a process whose `p_pptr` is again a `proc_ptr`,
  so every parent chain is finite and ends at a process whose parent pointer is `NULL`.
* `pid_t` and `int` are `Int`; the code only compares them for equality.
* The host's `vn_extattr_get` is carried by the `vnode` value: it gives the error code the
  query returns for a namespace and an attribute name.
* The arguments `cred`, `vplabel`, `accmode` and `conf` are never read by the code and are
  left out; `curproc` is an explicit argument.
-/

namespace MacSecure

/-! ## Host constants and types -/

/-- The value of `EXTATTR_NAMESPACE_USER` in `sys/extattr.h`. -/
def EXTATTR_NAMESPACE_USER : Int := 1

/-- The value of `EXTATTR_NAMESPACE_SYSTEM` in `sys/extattr.h`. -/
def EXTATTR_NAMESPACE_SYSTEM : Int := 2

/-- The value of `EPERM` in `sys/errno.h`. -/
def EPERM : Int := 1

/-- The value of `ENOATTR` in `sys/errno.h`. -/
def ENOATTR : Int := 87

/-- The macro `#define ATTR_NAMESPACE EXTATTR_NAMESPACE_USER`. -/
def ATTR_NAMESPACE : Int := EXTATTR_NAMESPACE_USER

/-- The macro `#define ATTR_NAME "secure"`. -/
def ATTR_NAME : String := "secure"

/-- The libc contract of `strcmp`: zero exactly on equal strings, otherwise the sign of the
lexicographic comparison. A C string is represented by its characters before the
terminator. -/
def strcmp (a b : String) : Int :=
  if a = b then 0 else if a < b then -1 else 1

mutual
/-- The two fields of `struct proc` the module reads. -/
inductive proc where
  | mk (p_pid : Int) (p_pptr : proc_ptr)
/-- A value of type `struct proc *`. -/
inductive proc_ptr where
  | NULL
  | ptr (p : proc)
end

/-- Field access `p->p_pid`. -/
def proc.p_pid : proc → Int
  | .mk pid _ => pid

/-- Field access `p->p_pptr`. -/
def proc.p_pptr : proc → proc_ptr
  | .mk _ pptr => pptr

/-- A vnode, seen through the only operation the module applies to it: the error code
`vn_extattr_get` returns for an attribute namespace and an attribute name. -/
structure vnode where
  vn_extattr_get : Int → String → Int

/-! ## Taint tracking -/

/-- The record `struct taint_entry`; the `link` field is the position in the list. -/
structure taint_entry where
  pid : Int
deriving DecidableEq, Repr

/-- The function `proc_is_tainted`: walk the list from its head, stop at the first entry whose pid is
the pid of `p`. -/
def proc_is_tainted (taint_head : List taint_entry) (p : proc) : Bool :=
  match taint_head with
  | [] => false
  | te :: rest => if te.pid = p.p_pid then true else proc_is_tainted rest p

/-- The function `proc_or_ancestor_is_tainted`: the `while (p != NULL)` loop over the parent links. -/
def proc_or_ancestor_is_tainted (taint_head : List taint_entry) : proc_ptr → Bool
  | .NULL => false
  | .ptr (.mk pid pptr) =>
    if proc_is_tainted taint_head (.mk pid pptr) then true
    else proc_or_ancestor_is_tainted taint_head pptr

/-- The function `proc_mark_tainted`: return at once when `p` is already in the list, otherwise allocate
an entry for the pid of `p` and insert it at the head. -/
def proc_mark_tainted (taint_head : List taint_entry) (p : proc) : List taint_entry :=
  if proc_is_tainted taint_head p then taint_head
  else { pid := p.p_pid } :: taint_head

/-- The function `vnode_has_secure`: the attribute query for `(ATTR_NAMESPACE, ATTR_NAME)` returned 0. -/
def vnode_has_secure (vp : vnode) : Bool :=
  vp.vn_extattr_get ATTR_NAMESPACE ATTR_NAME == 0

/-! ## MAC hooks -/

/-- The hook `secure_vnode_check_open`: the returned error code and the taint list after the call. -/
def secure_vnode_check_open (taint_head : List taint_entry) (curproc : proc) (vp : vnode) :
    Int × List taint_entry :=
  if vnode_has_secure vp then
    if !proc_is_tainted taint_head curproc then
      (EPERM, proc_mark_tainted taint_head curproc)
    else
      (EPERM, taint_head)
  else
    (0, taint_head)

/-- The hook `secure_vnode_check_deleteextattr`: the returned error code and the taint list after
the call. `name` is `none` for a `NULL` pointer. -/
def secure_vnode_check_deleteextattr (taint_head : List taint_entry) (curproc : proc)
    (vp : vnode) (attrnamespace : Int) (name : Option String) : Int × List taint_entry :=
  if (attrnamespace == ATTR_NAMESPACE &&
      match name with
      | none => false
      | some s => strcmp s ATTR_NAME == 0) then
    if proc_or_ancestor_is_tainted taint_head (.ptr curproc) && vnode_has_secure vp then
      (EPERM, taint_head)
    else
      (0, taint_head)
  else
    (0, taint_head)

/-- The `while ((te = LIST_FIRST(&taint_head)) != NULL)` loop of `secure_policy_destroy`:
unlink the first entry and free it, until the list is empty. The second component
collects the entries passed to `free`, in order. -/
def secure_policy_destroy_loop :
    List taint_entry → List taint_entry → List taint_entry × List taint_entry
  | [], freed => ([], freed)
  | te :: rest, freed => secure_policy_destroy_loop rest (freed ++ [te])

/-- The function `secure_policy_destroy`: the taint list after the call and the entries freed. -/
def secure_policy_destroy (taint_head : List taint_entry) :
    List taint_entry × List taint_entry :=
  secure_policy_destroy_loop taint_head []

/-! ## Parent chains -/

/-- The processes met by following `p_pptr` links from a pointer, the pointed-to process
first. -/
def lineage : proc_ptr → List proc
  | .NULL => []
  | .ptr (.mk pid pptr) => .mk pid pptr :: lineage pptr

/-- The proper ancestors of a process: its parent, the parent of its parent, and so on. -/
def ancestors (p : proc) : List proc :=
  lineage p.p_pptr

/-! ## Sequential call sequences -/

/-- One sequential call into the module. -/
inductive hook_call where
  | check_open (curproc : proc) (vp : vnode)
  | check_deleteextattr (curproc : proc) (vp : vnode) (attrnamespace : Int)
      (name : Option String)
  | mark_tainted (p : proc)
  | policy_destroy

/-- The taint list after one call. -/
def hook_call.apply (c : hook_call) (taint_head : List taint_entry) : List taint_entry :=
  match c with
  | .check_open curproc vp => (secure_vnode_check_open taint_head curproc vp).2
  | .check_deleteextattr curproc vp ns name =>
    (secure_vnode_check_deleteextattr taint_head curproc vp ns name).2
  | .mark_tainted p => proc_mark_tainted taint_head p
  | .policy_destroy => (secure_policy_destroy taint_head).1

/-- A call is one of the two MAC check hooks. -/
def hook_call.is_check_hook : hook_call → Bool
  | .check_open _ _ => true
  | .check_deleteextattr _ _ _ _ => true
  | _ => false

/-- A call is `secure_policy_destroy`. -/
def hook_call.is_destroy : hook_call → Bool
  | .policy_destroy => true
  | _ => false

/-- The taint list after a sequence of calls, the first call of the list made first. -/
def run_calls (calls : List hook_call) (taint_head : List taint_entry) : List taint_entry :=
  calls.foldl (fun h c => c.apply h) taint_head

/-- Repeat `proc_mark_tainted` for the same process `n` times in sequence. -/
def mark_repeatedly (p : proc) : Nat → List taint_entry → List taint_entry
  | 0, taint_head => taint_head
  | n + 1, taint_head => mark_repeatedly p n (proc_mark_tainted taint_head p)

/-- Number of entries of the list that carry the given pid. -/
def entries_for (pid : Int) (taint_head : List taint_entry) : Nat :=
  taint_head.countP (fun te => te.pid = pid)

/-! ## Two concurrent callers of `proc_mark_tainted`

Each caller runs two lock-delimited steps: the membership test under the read lock
(`proc_is_tainted`, line 70) and the insertion under the write lock (lines 75 to 77). The
lock makes each step atomic; nothing orders the steps of two callers. -/

/-- Where a caller of `proc_mark_tainted` stands. -/
inductive mark_pc where
  | at_check
  | at_insert
  | returned
deriving DecidableEq, Repr

/-- The shared list and the program points of two callers marking `p0` and `p1`. -/
structure mark_state where
  taint_head : List taint_entry
  pc0 : mark_pc
  pc1 : mark_pc

/-- One lock-delimited step of a caller marking `p`: the new list and the new program
point. -/
def mark_step (taint_head : List taint_entry) (p : proc) :
    mark_pc → List taint_entry × mark_pc
  | .at_check =>
    if proc_is_tainted taint_head p then (taint_head, .returned)
    else (taint_head, .at_insert)
  | .at_insert => ({ pid := p.p_pid } :: taint_head, .returned)
  | .returned => (taint_head, .returned)

/-- The scheduler lets caller 0 (`false`) or caller 1 (`true`) run its next step. -/
def sched_step (p0 p1 : proc) (s : mark_state) (who : Bool) : mark_state :=
  match who with
  | false =>
    let r := mark_step s.taint_head p0 s.pc0
    { taint_head := r.1, pc0 := r.2, pc1 := s.pc1 }
  | true =>
    let r := mark_step s.taint_head p1 s.pc1
    { taint_head := r.1, pc0 := s.pc0, pc1 := r.2 }

/-- Run a schedule from a list with both callers at their entry. -/
def run_schedule (p0 p1 : proc) (taint_head : List taint_entry) (schedule : List Bool) :
    mark_state :=
  schedule.foldl (sched_step p0 p1)
    { taint_head := taint_head, pc0 := .at_check, pc1 := .at_check }

/-! ## The scenario of the specification -/

/-- The four calls of the scenario, started on the empty list: `P` opens `F`; `C` asks to
delete `user.secure` on `F`; `Q` asks to delete `user.secure` on `F`; `P` opens `F'`, the
file as it is after the host removed the attribute. Each element is the error code of the
call and the taint list after it. -/
def scenario (P C Q : proc) (F F' : vnode) : List (Int × List taint_entry) :=
  let s1 := secure_vnode_check_open [] P F
  let s2 := secure_vnode_check_deleteextattr s1.2 C F EXTATTR_NAMESPACE_USER (some "secure")
  let s3 := secure_vnode_check_deleteextattr s2.2 Q F EXTATTR_NAMESPACE_USER (some "secure")
  let s4 := secure_vnode_check_open s3.2 P F'
  [s1, s2, s3, s4]

/-! ## Lemmas on the taint list -/

theorem proc_is_tainted_iff_mem (taint_head : List taint_entry) (p : proc) :
    proc_is_tainted taint_head p = true ↔ ∃ te ∈ taint_head, te.pid = p.p_pid := by
  induction taint_head with
  | nil => simp [proc_is_tainted]
  | cons te rest ih =>
    unfold proc_is_tainted
    by_cases h : te.pid = p.p_pid
    · simp [h]
    · simp [h, ih]

theorem proc_is_tainted_eq_false_iff (taint_head : List taint_entry) (p : proc) :
    proc_is_tainted taint_head p = false ↔ ∀ te ∈ taint_head, te.pid ≠ p.p_pid := by
  rw [← Bool.not_eq_true, proc_is_tainted_iff_mem]
  simp

theorem proc_is_tainted_congr_pid (taint_head : List taint_entry) (p q : proc)
    (h : p.p_pid = q.p_pid) : proc_is_tainted taint_head p = proc_is_tainted taint_head q := by
  induction taint_head with
  | nil => rfl
  | cons te rest ih => simp [proc_is_tainted, h, ih]

theorem proc_is_tainted_of_suffix {old new : List taint_entry} (hs : old <:+ new) (p : proc)
    (h : proc_is_tainted old p = true) : proc_is_tainted new p = true := by
  rw [proc_is_tainted_iff_mem] at h ⊢
  obtain ⟨te, hte, hpid⟩ := h
  exact ⟨te, hs.subset hte, hpid⟩

theorem proc_mark_tainted_is_tainted (taint_head : List taint_entry) (p : proc) :
    proc_is_tainted (proc_mark_tainted taint_head p) p = true := by
  unfold proc_mark_tainted
  by_cases h : proc_is_tainted taint_head p = true
  · simp [h]
  · simp [h, proc_is_tainted]

theorem proc_mark_tainted_of_tainted (taint_head : List taint_entry) (p : proc)
    (h : proc_is_tainted taint_head p = true) : proc_mark_tainted taint_head p = taint_head := by
  simp [proc_mark_tainted, h]

theorem proc_mark_tainted_of_clean (taint_head : List taint_entry) (p : proc)
    (h : proc_is_tainted taint_head p = false) :
    proc_mark_tainted taint_head p = { pid := p.p_pid } :: taint_head := by
  simp [proc_mark_tainted, h]

theorem proc_mark_tainted_suffix (taint_head : List taint_entry) (p : proc) :
    taint_head <:+ proc_mark_tainted taint_head p := by
  unfold proc_mark_tainted
  split
  · exact List.suffix_refl _
  · exact List.suffix_cons _ _

theorem proc_mark_tainted_nodup (taint_head : List taint_entry) (p : proc)
    (h : (taint_head.map taint_entry.pid).Nodup) :
    ((proc_mark_tainted taint_head p).map taint_entry.pid).Nodup := by
  by_cases ht : proc_is_tainted taint_head p = true
  · rw [proc_mark_tainted_of_tainted _ _ ht]
    exact h
  · have hf : proc_is_tainted taint_head p = false := by simpa using ht
    rw [proc_mark_tainted_of_clean _ _ hf, List.map_cons, List.nodup_cons]
    refine ⟨?_, h⟩
    intro hmem
    obtain ⟨te, hte, hpid⟩ := List.mem_map.mp hmem
    exact (proc_is_tainted_eq_false_iff _ _).mp hf te hte hpid

/-! ## Lemmas on the parent chain -/

theorem lineage_ptr (p : proc) : lineage (.ptr p) = p :: ancestors p := by
  cases p with
  | mk pid pptr => simp [lineage, ancestors, proc.p_pptr]

theorem proc_or_ancestor_is_tainted_iff (taint_head : List taint_entry) :
    ∀ pp : proc_ptr, proc_or_ancestor_is_tainted taint_head pp = true ↔
      ∃ q ∈ lineage pp, proc_is_tainted taint_head q = true
  | .NULL => by simp [proc_or_ancestor_is_tainted, lineage]
  | .ptr (.mk pid pptr) => by
    have ih := proc_or_ancestor_is_tainted_iff taint_head pptr
    unfold proc_or_ancestor_is_tainted
    by_cases h : proc_is_tainted taint_head (.mk pid pptr) = true
    · simp [h, lineage]
    · simp [h, lineage, ih]

/-! ## Lemmas on the hooks and on teardown -/

theorem vnode_has_secure_iff (vp : vnode) :
    vnode_has_secure vp = true ↔ vp.vn_extattr_get ATTR_NAMESPACE ATTR_NAME = 0 := by
  simp [vnode_has_secure]

theorem strcmp_eq_zero_iff (a b : String) : strcmp a b = 0 ↔ a = b := by
  unfold strcmp
  by_cases h : a = b
  · simp [h]
  · simp only [h, if_false, iff_false]
    split <;> decide

theorem secure_vnode_check_open_suffix (taint_head : List taint_entry) (curproc : proc)
    (vp : vnode) : taint_head <:+ (secure_vnode_check_open taint_head curproc vp).2 := by
  unfold secure_vnode_check_open
  split
  · split
    · exact proc_mark_tainted_suffix _ _
    · exact List.suffix_refl _
  · exact List.suffix_refl _

theorem secure_vnode_check_deleteextattr_snd (taint_head : List taint_entry) (curproc : proc)
    (vp : vnode) (attrnamespace : Int) (name : Option String) :
    (secure_vnode_check_deleteextattr taint_head curproc vp attrnamespace name).2
      = taint_head := by
  unfold secure_vnode_check_deleteextattr
  split
  · split <;> rfl
  · rfl

theorem secure_policy_destroy_loop_eq (taint_head freed : List taint_entry) :
    secure_policy_destroy_loop taint_head freed = ([], freed ++ taint_head) := by
  induction taint_head generalizing freed with
  | nil => simp [secure_policy_destroy_loop]
  | cons te rest ih => simp [secure_policy_destroy_loop, ih]

theorem hook_call_apply_suffix (c : hook_call) (taint_head : List taint_entry)
    (hc : c.is_destroy = false) : taint_head <:+ c.apply taint_head := by
  cases c with
  | check_open curproc vp => exact secure_vnode_check_open_suffix _ _ _
  | check_deleteextattr curproc vp ns name =>
    simp only [hook_call.apply, secure_vnode_check_deleteextattr_snd]
    exact List.suffix_refl _
  | mark_tainted p => exact proc_mark_tainted_suffix _ _
  | policy_destroy => simp [hook_call.is_destroy] at hc

theorem run_calls_suffix (calls : List hook_call) (taint_head : List taint_entry)
    (hc : ∀ c ∈ calls, c.is_destroy = false) : taint_head <:+ run_calls calls taint_head := by
  induction calls generalizing taint_head with
  | nil => exact List.suffix_refl _
  | cons c cs ih =>
    have h1 := hook_call_apply_suffix c taint_head (hc c (List.mem_cons_self _ _))
    have h2 := ih (c.apply taint_head) (fun d hd => hc d (List.mem_cons_of_mem _ hd))
    exact h1.trans h2

theorem hook_call_apply_nodup (c : hook_call) (taint_head : List taint_entry)
    (h : (taint_head.map taint_entry.pid).Nodup) :
    ((c.apply taint_head).map taint_entry.pid).Nodup := by
  cases c with
  | check_open curproc vp =>
    simp only [hook_call.apply, secure_vnode_check_open]
    split
    · split
      · exact proc_mark_tainted_nodup _ _ h
      · exact h
    · exact h
  | check_deleteextattr curproc vp ns name =>
    simp only [hook_call.apply, secure_vnode_check_deleteextattr_snd]
    exact h
  | mark_tainted p => exact proc_mark_tainted_nodup _ _ h
  | policy_destroy =>
    simp [hook_call.apply, secure_policy_destroy, secure_policy_destroy_loop_eq]

theorem run_calls_nodup (calls : List hook_call) (taint_head : List taint_entry)
    (h : (taint_head.map taint_entry.pid).Nodup) :
    ((run_calls calls taint_head).map taint_entry.pid).Nodup := by
  induction calls generalizing taint_head with
  | nil => exact h
  | cons c cs ih => exact ih (c.apply taint_head) (hook_call_apply_nodup c taint_head h)

theorem mark_repeatedly_of_tainted (p : proc) (n : Nat) (taint_head : List taint_entry)
    (h : proc_is_tainted taint_head p = true) : mark_repeatedly p n taint_head = taint_head := by
  induction n with
  | zero => rfl
  | succ k ih => simp [mark_repeatedly, proc_mark_tainted_of_tainted _ _ h, ih]

theorem entries_for_eq_zero (pid : Int) (taint_head : List taint_entry)
    (h : ∀ te ∈ taint_head, te.pid ≠ pid) : entries_for pid taint_head = 0 := by
  unfold entries_for
  rw [List.countP_eq_zero]
  intro te hte
  simpa using h te hte

theorem mark_step_twice (taint_head : List taint_entry) (p : proc) :
    (mark_step (mark_step taint_head p .at_check).1 p (mark_step taint_head p .at_check).2).1
      = proc_mark_tainted taint_head p := by
  unfold proc_mark_tainted
  by_cases h : proc_is_tainted taint_head p = true <;> simp [mark_step, h]

/-! ## The claims -/

/-- C1, taint on attempt: when the attribute query reports the marker present on `F`
(error code 0), `secure_vnode_check_open` made by process `P` returns `EPERM`, and `P` is
tainted in the resulting list, for every list before the call, with or without `P`. -/
theorem open_marked_denies_and_taints (taint_head : List taint_entry) (P : proc) (F : vnode)
    (hF : F.vn_extattr_get ATTR_NAMESPACE ATTR_NAME = 0) :
    (secure_vnode_check_open taint_head P F).1 = EPERM ∧
      proc_is_tainted (secure_vnode_check_open taint_head P F).2 P = true := by
  have hv : vnode_has_secure F = true := (vnode_has_secure_iff F).mpr hF
  unfold secure_vnode_check_open
  by_cases h : proc_is_tainted taint_head P = true
  · simp [hv, h]
  · simp [hv, h, proc_mark_tainted_is_tainted]

/-- C1 at concrete inputs: an untainted and an already tainted process open a marked file. -/
theorem open_marked_denies_and_taints_witness :
    ((secure_vnode_check_open [] (.mk 7 .NULL) ⟨fun _ _ => 0⟩).1 = EPERM ∧
      proc_is_tainted (secure_vnode_check_open [] (.mk 7 .NULL) ⟨fun _ _ => 0⟩).2
        (.mk 7 .NULL) = true) ∧
    ((secure_vnode_check_open [⟨7⟩] (.mk 7 .NULL) ⟨fun _ _ => 0⟩).1 = EPERM ∧
      proc_is_tainted (secure_vnode_check_open [⟨7⟩] (.mk 7 .NULL) ⟨fun _ _ => 0⟩).2
        (.mk 7 .NULL) = true) :=
  ⟨open_marked_denies_and_taints [] (.mk 7 .NULL) ⟨fun _ _ => 0⟩ rfl,
   open_marked_denies_and_taints [⟨7⟩] (.mk 7 .NULL) ⟨fun _ _ => 0⟩ rfl⟩

/-- C2, no taint on clean files: when the attribute query reports the marker absent on `F`
(a non-zero error code), `secure_vnode_check_open` returns 0 and the answer of
`proc_is_tainted` for `P` is the same after the call as before; the list itself is
unchanged. -/
theorem open_clean_allows_and_keeps_status (taint_head : List taint_entry) (P : proc)
    (F : vnode) (hF : F.vn_extattr_get ATTR_NAMESPACE ATTR_NAME ≠ 0) :
    (secure_vnode_check_open taint_head P F).1 = 0 ∧
      proc_is_tainted (secure_vnode_check_open taint_head P F).2 P
        = proc_is_tainted taint_head P ∧
      (secure_vnode_check_open taint_head P F).2 = taint_head := by
  have hv : vnode_has_secure F = false := by
    rw [← Bool.not_eq_true, vnode_has_secure_iff]
    exact hF
  simp [secure_vnode_check_open, hv]

/-- C2 at a concrete input: a tainted process opens a file without the marker. -/
theorem open_clean_allows_and_keeps_status_witness :
    (secure_vnode_check_open [⟨7⟩] (.mk 7 .NULL) ⟨fun _ _ => ENOATTR⟩).1 = 0 ∧
      proc_is_tainted (secure_vnode_check_open [⟨7⟩] (.mk 7 .NULL) ⟨fun _ _ => ENOATTR⟩).2
        (.mk 7 .NULL) = proc_is_tainted [⟨7⟩] (.mk 7 .NULL) ∧
      (secure_vnode_check_open [⟨7⟩] (.mk 7 .NULL) ⟨fun _ _ => ENOATTR⟩).2 = [⟨7⟩] :=
  open_clean_allows_and_keeps_status [⟨7⟩] (.mk 7 .NULL) ⟨fun _ _ => ENOATTR⟩ (by decide)

/-- C3, conditional delete denial: on a file carrying the marker, the delete check for
namespace USER and name "secure" returns `EPERM` when the pid of the current process or of
one of its ancestors has an entry in the list, and returns 0 when none of them has. -/
theorem delete_marker_conditional (taint_head : List taint_entry) (C : proc) (F : vnode)
    (hF : F.vn_extattr_get ATTR_NAMESPACE ATTR_NAME = 0) :
    ((∃ q ∈ C :: ancestors C, ∃ te ∈ taint_head, te.pid = q.p_pid) →
      (secure_vnode_check_deleteextattr taint_head C F EXTATTR_NAMESPACE_USER
        (some "secure")).1 = EPERM) ∧
    ((∀ q ∈ C :: ancestors C, ∀ te ∈ taint_head, te.pid ≠ q.p_pid) →
      (secure_vnode_check_deleteextattr taint_head C F EXTATTR_NAMESPACE_USER
        (some "secure")).1 = 0) := by
  have hv : vnode_has_secure F = true := (vnode_has_secure_iff F).mpr hF
  have hscope : (EXTATTR_NAMESPACE_USER == ATTR_NAMESPACE &&
      strcmp "secure" ATTR_NAME == 0) = true := by decide
  constructor
  · intro h
    have hw : proc_or_ancestor_is_tainted taint_head (.ptr C) = true := by
      rw [proc_or_ancestor_is_tainted_iff, lineage_ptr]
      obtain ⟨q, hq, hte⟩ := h
      exact ⟨q, hq, (proc_is_tainted_iff_mem _ _).mpr hte⟩
    simp [secure_vnode_check_deleteextattr, hscope, hw, hv]
  · intro h
    have hw : proc_or_ancestor_is_tainted taint_head (.ptr C) = false := by
      rw [← Bool.not_eq_true, proc_or_ancestor_is_tainted_iff, lineage_ptr]
      rintro ⟨q, hq, hte⟩
      obtain ⟨te, hmem, hpid⟩ := (proc_is_tainted_iff_mem _ _).mp hte
      exact h q hq te hmem hpid
    simp [secure_vnode_check_deleteextattr, hscope, hw]

/-- C3 at concrete inputs: a child of the tainted process 7 is denied, an unrelated
process 9 is allowed, on the same marked file. -/
theorem delete_marker_conditional_witness :
    (secure_vnode_check_deleteextattr [⟨7⟩] (.mk 8 (.ptr (.mk 7 .NULL))) ⟨fun _ _ => 0⟩
      EXTATTR_NAMESPACE_USER (some "secure")).1 = EPERM ∧
    (secure_vnode_check_deleteextattr [⟨7⟩] (.mk 9 .NULL) ⟨fun _ _ => 0⟩
      EXTATTR_NAMESPACE_USER (some "secure")).1 = 0 :=
  ⟨(delete_marker_conditional [⟨7⟩] (.mk 8 (.ptr (.mk 7 .NULL))) ⟨fun _ _ => 0⟩ rfl).1
      ⟨.mk 7 .NULL, List.mem_cons_of_mem _ (List.mem_cons_self _ _), ⟨7⟩,
        List.mem_cons_self _ _, rfl⟩,
   (delete_marker_conditional [⟨7⟩] (.mk 9 .NULL) ⟨fun _ _ => 0⟩ rfl).2
      (by
        intro q hq te hte
        have hq9 : q = .mk 9 .NULL := by simpa [ancestors, proc.p_pptr, lineage] using hq
        have hte7 : te = ⟨7⟩ := by simpa using hte
        subst hq9 hte7
        decide)⟩

/-- C4, scope limited to the marker name: the delete check returns 0 whenever the
namespace is not USER, or the name is NULL, or the name is a string other than "secure",
for every list, process and file. -/
theorem delete_out_of_scope_allows (taint_head : List taint_entry) (C : proc) (F : vnode)
    (attrnamespace : Int) (name : Option String)
    (h : attrnamespace ≠ EXTATTR_NAMESPACE_USER ∨ name = none ∨
      ∃ s, name = some s ∧ s ≠ "secure") :
    (secure_vnode_check_deleteextattr taint_head C F attrnamespace name).1 = 0 := by
  unfold secure_vnode_check_deleteextattr
  rcases h with h | h | ⟨s, hs, hne⟩
  · have hns : (attrnamespace == ATTR_NAMESPACE) = false := by
      simpa [ATTR_NAMESPACE] using h
    simp [hns]
  · subst h
    simp
  · subst hs
    have hcmp : (strcmp s ATTR_NAME == 0) = false := by
      simpa [strcmp_eq_zero_iff, ATTR_NAME] using hne
    simp [hcmp]

/-- C4 at concrete inputs: a tainted process on a marked file, asking for another
namespace, a NULL name, or another name. -/
theorem delete_out_of_scope_allows_witness :
    (secure_vnode_check_deleteextattr [⟨7⟩] (.mk 7 .NULL) ⟨fun _ _ => 0⟩
      EXTATTR_NAMESPACE_SYSTEM (some "secure")).1 = 0 ∧
    (secure_vnode_check_deleteextattr [⟨7⟩] (.mk 7 .NULL) ⟨fun _ _ => 0⟩
      EXTATTR_NAMESPACE_USER none).1 = 0 ∧
    (secure_vnode_check_deleteextattr [⟨7⟩] (.mk 7 .NULL) ⟨fun _ _ => 0⟩
      EXTATTR_NAMESPACE_USER (some "secure2")).1 = 0 :=
  ⟨delete_out_of_scope_allows [⟨7⟩] (.mk 7 .NULL) ⟨fun _ _ => 0⟩ EXTATTR_NAMESPACE_SYSTEM
      (some "secure") (Or.inl (by decide)),
   delete_out_of_scope_allows [⟨7⟩] (.mk 7 .NULL) ⟨fun _ _ => 0⟩ EXTATTR_NAMESPACE_USER
      none (Or.inr (Or.inl rfl)),
   delete_out_of_scope_allows [⟨7⟩] (.mk 7 .NULL) ⟨fun _ _ => 0⟩ EXTATTR_NAMESPACE_USER
      (some "secure2") (Or.inr (Or.inr ⟨"secure2", rfl, by decide⟩))⟩

/-- C5, lineage propagation: if the pid of `P` has an entry in the list, `P` is reached
from `C` by following one or more `p_pptr` links, and the pid of `C` has no entry, then
`proc_or_ancestor_is_tainted` returns true for `C`. -/
theorem lineage_propagation (taint_head : List taint_entry) (P C : proc)
    (hP : ∃ te ∈ taint_head, te.pid = P.p_pid) (hdesc : P ∈ ancestors C)
    (hC : ∀ te ∈ taint_head, te.pid ≠ C.p_pid) :
    proc_or_ancestor_is_tainted taint_head (.ptr C) = true ∧
      proc_is_tainted taint_head C = false := by
  refine ⟨?_, (proc_is_tainted_eq_false_iff _ _).mpr hC⟩
  rw [proc_or_ancestor_is_tainted_iff, lineage_ptr]
  exact ⟨P, List.mem_cons_of_mem _ hdesc, (proc_is_tainted_iff_mem _ _).mpr hP⟩

/-- C5 at a concrete input: process 9 is a grandchild of the tainted process 7. -/
theorem lineage_propagation_witness :
    proc_or_ancestor_is_tainted [⟨7⟩]
      (.ptr (.mk 9 (.ptr (.mk 8 (.ptr (.mk 7 .NULL)))))) = true ∧
      proc_is_tainted [⟨7⟩] (.mk 9 (.ptr (.mk 8 (.ptr (.mk 7 .NULL))))) = false :=
  lineage_propagation [⟨7⟩] (.mk 7 .NULL) (.mk 9 (.ptr (.mk 8 (.ptr (.mk 7 .NULL)))))
    ⟨⟨7⟩, List.mem_cons_self _ _, rfl⟩
    (List.mem_cons_of_mem _ (List.mem_cons_self _ _))
    (by
      intro te hte
      have hte7 : te = ⟨7⟩ := by simpa using hte
      subst hte7
      decide)

/-- C6, idempotent marking in sequence: from a list with no entry for the pid of `p`,
calling `proc_mark_tainted` for `p` `N >= 1` times in a row leaves exactly one entry with
that pid and a list one entry longer than before; and on any list that already has an
entry for that pid, `proc_mark_tainted` returns the list unchanged. -/
theorem mark_idempotent_sequential (taint_head : List taint_entry) (p : proc) (N : Nat)
    (habs : ∀ te ∈ taint_head, te.pid ≠ p.p_pid) (hN : 1 ≤ N) :
    entries_for p.p_pid (mark_repeatedly p N taint_head) = 1 ∧
      (mark_repeatedly p N taint_head).length = taint_head.length + 1 ∧
      ∀ r : List taint_entry, (∃ te ∈ r, te.pid = p.p_pid) → proc_mark_tainted r p = r := by
  have hclean : proc_is_tainted taint_head p = false :=
    (proc_is_tainted_eq_false_iff _ _).mpr habs
  obtain ⟨k, rfl⟩ : ∃ k, N = k + 1 := ⟨N - 1, by omega⟩
  have hrun : mark_repeatedly p (k + 1) taint_head = { pid := p.p_pid } :: taint_head := by
    show mark_repeatedly p k (proc_mark_tainted taint_head p) = _
    rw [mark_repeatedly_of_tainted _ _ _ (proc_mark_tainted_is_tainted _ _),
      proc_mark_tainted_of_clean _ _ hclean]
  refine ⟨?_, ?_, ?_⟩
  · have h0 := entries_for_eq_zero p.p_pid taint_head habs
    unfold entries_for at h0 ⊢
    rw [hrun, List.countP_cons, h0]
    simp
  · rw [hrun, List.length_cons]
  · intro r hr
    exact proc_mark_tainted_of_tainted _ _ ((proc_is_tainted_iff_mem _ _).mpr hr)

/-- C6 at a concrete input: three calls for pid 7 on a list that holds only pid 5. -/
theorem mark_idempotent_sequential_witness :
    entries_for 7 (mark_repeatedly (.mk 7 .NULL) 3 [⟨5⟩]) = 1 ∧
      (mark_repeatedly (.mk 7 .NULL) 3 [⟨5⟩]).length = 1 + 1 ∧
      ∀ r : List taint_entry, (∃ te ∈ r, te.pid = 7) →
        proc_mark_tainted r (.mk 7 .NULL) = r :=
  mark_idempotent_sequential [⟨5⟩] (.mk 7 .NULL) 3
    (by
      intro te hte
      have hte5 : te = ⟨5⟩ := by simpa using hte
      subst hte5
      decide)
    (by decide)

/-- C7, evaluated on the code: two callers of `proc_mark_tainted` for the same pid 7 start
on the empty list; both run their read-locked membership test before either runs its
write-locked insertion. Both callers return and the list ends with two entries for pid 7:
the insertion step does not test membership again. Run one after the other, the same two
callers leave one entry. -/
theorem mark_race_inserts_twice :
    (run_schedule (.mk 7 .NULL) (.mk 7 .NULL) [] [false, true, false, true]).taint_head
        = [⟨7⟩, ⟨7⟩] ∧
      (run_schedule (.mk 7 .NULL) (.mk 7 .NULL) [] [false, true, false, true]).pc0
        = .returned ∧
      (run_schedule (.mk 7 .NULL) (.mk 7 .NULL) [] [false, true, false, true]).pc1
        = .returned ∧
      entries_for 7
        (run_schedule (.mk 7 .NULL) (.mk 7 .NULL) [] [false, true, false, true]).taint_head
        = 2 ∧
      (run_schedule (.mk 7 .NULL) (.mk 7 .NULL) [] [false, false, true, true]).taint_head
        = [⟨7⟩] := by
  decide

/-- C8, no duplicates: after any sequential sequence of `secure_vnode_check_open`,
`secure_vnode_check_deleteextattr`, `proc_mark_tainted` and `secure_policy_destroy` calls
started on the empty list, no two entries of the list carry the same pid. -/
theorem registry_no_duplicates (calls : List hook_call) :
    ((run_calls calls []).map taint_entry.pid).Nodup :=
  run_calls_nodup calls [] List.nodup_nil

/-- C9, teardown drains: for every list, `secure_policy_destroy` (a total function) leaves
the empty list, passes to `free` exactly the entries of the list, each position once and
in list order, and afterwards `proc_is_tainted` is false for every process. -/
theorem destroy_drains (taint_head : List taint_entry) :
    (secure_policy_destroy taint_head).1 = [] ∧
      (secure_policy_destroy taint_head).2 = taint_head ∧
      ∀ p : proc, proc_is_tainted (secure_policy_destroy taint_head).1 p = false := by
  simp [secure_policy_destroy, secure_policy_destroy_loop_eq, proc_is_tainted]

/-- C10, taint is permanent under the hooks: if `proc_is_tainted` is true for `P`, it is
still true after any finite sequence of `secure_vnode_check_open` and
`secure_vnode_check_deleteextattr` calls by any processes on any files. No call other than
`secure_policy_destroy` removes an entry (the list before the call is a suffix of the list
after it), while `secure_policy_destroy` removes the entry of `P`. -/
theorem taint_permanent_under_hooks (taint_head : List taint_entry) (P : proc)
    (calls : List hook_call) (hP : proc_is_tainted taint_head P = true)
    (hcalls : ∀ c ∈ calls, c.is_check_hook = true) :
    proc_is_tainted (run_calls calls taint_head) P = true ∧
      (∀ (c : hook_call) (r : List taint_entry), c.is_destroy = false → r <:+ c.apply r) ∧
      proc_is_tainted (hook_call.policy_destroy.apply taint_head) P = false := by
  refine ⟨?_, fun c r hc => hook_call_apply_suffix c r hc, ?_⟩
  · refine proc_is_tainted_of_suffix (run_calls_suffix calls taint_head ?_) P hP
    intro c hc
    have h := hcalls c hc
    cases c <;> simp_all [hook_call.is_check_hook, hook_call.is_destroy]
  · simp [hook_call.apply, secure_policy_destroy, secure_policy_destroy_loop_eq,
      proc_is_tainted]

/-- C10 at a concrete input: process 7 is tainted; process 8 opens a marked file, then a
child of 7 asks to delete the marker, then 7 opens an unmarked file. -/
theorem taint_permanent_under_hooks_witness :
    proc_is_tainted
      (run_calls
        [.check_open (.mk 8 .NULL) ⟨fun _ _ => 0⟩,
         .check_deleteextattr (.mk 9 (.ptr (.mk 7 .NULL))) ⟨fun _ _ => 0⟩
           EXTATTR_NAMESPACE_USER (some "secure"),
         .check_open (.mk 7 .NULL) ⟨fun _ _ => ENOATTR⟩] [⟨7⟩])
      (.mk 7 .NULL) = true ∧
      (∀ (c : hook_call) (r : List taint_entry), c.is_destroy = false → r <:+ c.apply r) ∧
      proc_is_tainted (hook_call.policy_destroy.apply [⟨7⟩]) (.mk 7 .NULL) = false :=
  taint_permanent_under_hooks [⟨7⟩] (.mk 7 .NULL)
    [.check_open (.mk 8 .NULL) ⟨fun _ _ => 0⟩,
     .check_deleteextattr (.mk 9 (.ptr (.mk 7 .NULL))) ⟨fun _ _ => 0⟩
       EXTATTR_NAMESPACE_USER (some "secure"),
     .check_open (.mk 7 .NULL) ⟨fun _ _ => ENOATTR⟩]
    (by decide)
    (by
      intro c hc
      simp only [List.mem_cons, List.mem_singleton, List.not_mem_nil, or_false] at hc
      rcases hc with rfl | rfl | rfl <;> rfl)

/-! ## Further lemmas on the hooks -/

theorem secure_vnode_check_open_of_absent (taint_head : List taint_entry) (curproc : proc)
    (vp : vnode) (h : vp.vn_extattr_get ATTR_NAMESPACE ATTR_NAME ≠ 0) :
    secure_vnode_check_open taint_head curproc vp = (0, taint_head) := by
  have hv : vnode_has_secure vp = false := by
    rw [← Bool.not_eq_true, vnode_has_secure_iff]
    exact h
  simp [secure_vnode_check_open, hv]

theorem secure_vnode_check_open_of_present (taint_head : List taint_entry) (curproc : proc)
    (vp : vnode) (h : vp.vn_extattr_get ATTR_NAMESPACE ATTR_NAME = 0) :
    secure_vnode_check_open taint_head curproc vp
      = (EPERM, proc_mark_tainted taint_head curproc) := by
  have hv : vnode_has_secure vp = true := (vnode_has_secure_iff vp).mpr h
  unfold secure_vnode_check_open
  by_cases ht : proc_is_tainted taint_head curproc = true
  · simp [hv, ht, proc_mark_tainted_of_tainted _ _ ht]
  · simp [hv, ht]

theorem secure_vnode_check_open_fst (taint_head : List taint_entry) (curproc : proc)
    (vp : vnode) :
    (secure_vnode_check_open taint_head curproc vp).1
      = if vnode_has_secure vp then EPERM else 0 := by
  unfold secure_vnode_check_open
  split
  · split <;> rfl
  · rfl

theorem secure_vnode_check_deleteextattr_fst_marker (taint_head : List taint_entry)
    (curproc : proc) (vp : vnode) :
    (secure_vnode_check_deleteextattr taint_head curproc vp EXTATTR_NAMESPACE_USER
        (some "secure")).1
      = if proc_or_ancestor_is_tainted taint_head (.ptr curproc) && vnode_has_secure vp
        then EPERM else 0 := by
  have hscope : (EXTATTR_NAMESPACE_USER == ATTR_NAMESPACE &&
      strcmp "secure" ATTR_NAME == 0) = true := by decide
  unfold secure_vnode_check_deleteextattr
  simp only [hscope, if_true]
  split <;> rfl

theorem secure_vnode_check_deleteextattr_fst_of_absent (taint_head : List taint_entry)
    (curproc : proc) (vp : vnode) (attrnamespace : Int) (name : Option String)
    (h : vp.vn_extattr_get ATTR_NAMESPACE ATTR_NAME ≠ 0) :
    (secure_vnode_check_deleteextattr taint_head curproc vp attrnamespace name).1 = 0 := by
  have hv : vnode_has_secure vp = false := by
    rw [← Bool.not_eq_true, vnode_has_secure_iff]
    exact h
  unfold secure_vnode_check_deleteextattr
  split
  · simp [hv]
  · rfl

theorem proc_or_ancestor_is_tainted_of_self (taint_head : List taint_entry) (p : proc)
    (h : proc_is_tainted taint_head p = true) :
    proc_or_ancestor_is_tainted taint_head (.ptr p) = true := by
  rw [proc_or_ancestor_is_tainted_iff, lineage_ptr]
  exact ⟨p, List.mem_cons_self _ _, h⟩

theorem proc_or_ancestor_is_tainted_eq_false_iff (taint_head : List taint_entry)
    (pp : proc_ptr) :
    proc_or_ancestor_is_tainted taint_head pp = false ↔
      ∀ q ∈ lineage pp, ∀ te ∈ taint_head, te.pid ≠ q.p_pid := by
  rw [← Bool.not_eq_true, proc_or_ancestor_is_tainted_iff]
  constructor
  · intro h q hq te hte hpid
    exact h ⟨q, hq, (proc_is_tainted_iff_mem _ _).mpr ⟨te, hte, hpid⟩⟩
  · rintro h ⟨q, hq, ht⟩
    obtain ⟨te, hte, hpid⟩ := (proc_is_tainted_iff_mem _ _).mp ht
    exact h q hq te hte hpid

theorem proc_mark_tainted_other (taint_head : List taint_entry) (p q : proc)
    (h : q.p_pid ≠ p.p_pid) :
    proc_is_tainted (proc_mark_tainted taint_head p) q = proc_is_tainted taint_head q := by
  unfold proc_mark_tainted
  split
  · rfl
  · have hne : ¬ p.p_pid = q.p_pid := fun e => h e.symm
    simp [proc_is_tainted, hne]

theorem secure_vnode_check_open_other (taint_head : List taint_entry) (curproc : proc)
    (vp : vnode) (q : proc) (h : q.p_pid ≠ curproc.p_pid) :
    proc_is_tainted (secure_vnode_check_open taint_head curproc vp).2 q
      = proc_is_tainted taint_head q := by
  unfold secure_vnode_check_open
  split
  · split
    · exact proc_mark_tainted_other _ _ _ h
    · rfl
  · rfl

theorem run_calls_append_singleton (calls : List hook_call) (c : hook_call)
    (taint_head : List taint_entry) :
    run_calls (calls ++ [c]) taint_head = c.apply (run_calls calls taint_head) := by
  simp [run_calls, List.foldl_append]

/-! ## The claims, continued -/

/-- C11, the concrete scenario: from the empty list with the marker on the file, `P` opens
it, a child `C` of `P` asks to delete the marker, an unrelated process `Q` with no pid of
`P` on its parent chain asks to delete the marker, and `P` opens the file again once the
marker is gone. The decisions are `EPERM`, `EPERM`, 0, 0; the list holds exactly the entry
of `P` after every step, so `P` is tainted after the first step and after the last, and
the last open leaves the list as it was. -/
theorem scenario_decisions (P C Q : proc) (F F' : vnode)
    (hF : F.vn_extattr_get ATTR_NAMESPACE ATTR_NAME = 0)
    (hF' : F'.vn_extattr_get ATTR_NAMESPACE ATTR_NAME ≠ 0)
    (hC : C.p_pptr = .ptr P)
    (hQ : ∀ q ∈ Q :: ancestors Q, q.p_pid ≠ P.p_pid) :
    (scenario P C Q F F').map Prod.fst = [EPERM, EPERM, 0, 0] ∧
      (scenario P C Q F F').map Prod.snd
        = [[⟨P.p_pid⟩], [⟨P.p_pid⟩], [⟨P.p_pid⟩], [⟨P.p_pid⟩]] ∧
      proc_is_tainted [⟨P.p_pid⟩] P = true := by
  have hv : vnode_has_secure F = true := (vnode_has_secure_iff F).mpr hF
  have hPt : proc_is_tainted [⟨P.p_pid⟩] P = true := by simp [proc_is_tainted]
  have h1 : secure_vnode_check_open [] P F = (EPERM, [⟨P.p_pid⟩]) := by
    rw [secure_vnode_check_open_of_present _ _ _ hF]
    simp [proc_mark_tainted, proc_is_tainted]
  have hCw : proc_or_ancestor_is_tainted [⟨P.p_pid⟩] (.ptr C) = true := by
    rw [proc_or_ancestor_is_tainted_iff, lineage_ptr]
    refine ⟨P, List.mem_cons_of_mem _ ?_, hPt⟩
    unfold ancestors
    rw [hC, lineage_ptr]
    exact List.mem_cons_self _ _
  have hQw : proc_or_ancestor_is_tainted [⟨P.p_pid⟩] (.ptr Q) = false := by
    rw [proc_or_ancestor_is_tainted_eq_false_iff, lineage_ptr]
    intro q hq te hte hpid
    have hte' : te = ⟨P.p_pid⟩ := by simpa using hte
    subst hte'
    exact hQ q hq hpid.symm
  have h2 : secure_vnode_check_deleteextattr [⟨P.p_pid⟩] C F EXTATTR_NAMESPACE_USER
      (some "secure") = (EPERM, [⟨P.p_pid⟩]) := by
    refine Prod.ext ?_ (secure_vnode_check_deleteextattr_snd _ _ _ _ _)
    rw [secure_vnode_check_deleteextattr_fst_marker]
    simp [hCw, hv]
  have h3 : secure_vnode_check_deleteextattr [⟨P.p_pid⟩] Q F EXTATTR_NAMESPACE_USER
      (some "secure") = (0, [⟨P.p_pid⟩]) := by
    refine Prod.ext ?_ (secure_vnode_check_deleteextattr_snd _ _ _ _ _)
    rw [secure_vnode_check_deleteextattr_fst_marker]
    simp [hQw]
  have h4 : secure_vnode_check_open [⟨P.p_pid⟩] P F' = (0, [⟨P.p_pid⟩]) :=
    secure_vnode_check_open_of_absent _ _ _ hF'
  refine ⟨?_, ?_, hPt⟩ <;> simp [scenario, h1, h2, h3, h4]

/-- C11 at the concrete input: `P` has pid 7, its child `C` pid 8, the unrelated `Q`
pid 9. -/
theorem scenario_decisions_witness :
    (scenario (.mk 7 .NULL) (.mk 8 (.ptr (.mk 7 .NULL))) (.mk 9 .NULL)
        ⟨fun _ _ => 0⟩ ⟨fun _ _ => ENOATTR⟩).map Prod.fst = [EPERM, EPERM, 0, 0] ∧
      (scenario (.mk 7 .NULL) (.mk 8 (.ptr (.mk 7 .NULL))) (.mk 9 .NULL)
        ⟨fun _ _ => 0⟩ ⟨fun _ _ => ENOATTR⟩).map Prod.snd
        = [[⟨7⟩], [⟨7⟩], [⟨7⟩], [⟨7⟩]] ∧
      proc_is_tainted [⟨7⟩] (.mk 7 .NULL) = true :=
  scenario_decisions (.mk 7 .NULL) (.mk 8 (.ptr (.mk 7 .NULL))) (.mk 9 .NULL)
    ⟨fun _ _ => 0⟩ ⟨fun _ _ => ENOATTR⟩ rfl (by decide) rfl
    (by
      intro q hq
      have hq9 : q = .mk 9 .NULL := by simpa [ancestors, proc.p_pptr, lineage] using hq
      subst hq9
      decide)

/-- C12, taint by proxy: with the marker on `A`, if `B` carries the marker then the open of
`B` by `P` returns `EPERM` and the following delete check by `P` on `A` for namespace USER
and name "secure" returns `EPERM`; if `B` does not carry the marker and no process on the
parent chain of `P` (itself included) has an entry, the open returns 0 and the delete
check on `A` returns 0. -/
theorem taint_by_proxy (taint_head : List taint_entry) (P : proc) (A B : vnode)
    (hA : A.vn_extattr_get ATTR_NAMESPACE ATTR_NAME = 0) :
    (B.vn_extattr_get ATTR_NAMESPACE ATTR_NAME = 0 →
      (secure_vnode_check_open taint_head P B).1 = EPERM ∧
      (secure_vnode_check_deleteextattr (secure_vnode_check_open taint_head P B).2 P A
        EXTATTR_NAMESPACE_USER (some "secure")).1 = EPERM) ∧
    (B.vn_extattr_get ATTR_NAMESPACE ATTR_NAME ≠ 0 →
      (∀ q ∈ P :: ancestors P, ∀ te ∈ taint_head, te.pid ≠ q.p_pid) →
      (secure_vnode_check_open taint_head P B).1 = 0 ∧
      (secure_vnode_check_deleteextattr (secure_vnode_check_open taint_head P B).2 P A
        EXTATTR_NAMESPACE_USER (some "secure")).1 = 0) := by
  have hv : vnode_has_secure A = true := (vnode_has_secure_iff A).mpr hA
  constructor
  · intro hB
    rw [secure_vnode_check_open_of_present _ _ _ hB, secure_vnode_check_deleteextattr_fst_marker]
    have hw := proc_or_ancestor_is_tainted_of_self _ P (proc_mark_tainted_is_tainted taint_head P)
    simp [hw, hv]
  · intro hB hclean
    rw [secure_vnode_check_open_of_absent _ _ _ hB, secure_vnode_check_deleteextattr_fst_marker]
    have hw : proc_or_ancestor_is_tainted taint_head (.ptr P) = false := by
      rw [proc_or_ancestor_is_tainted_eq_false_iff, lineage_ptr]
      exact hclean
    simp [hw]

/-- C12 at concrete inputs: process 7 on the empty list, `a.txt` marked; once with `b.txt`
marked, once with `b.txt` unmarked. -/
theorem taint_by_proxy_witness :
    ((secure_vnode_check_open [] (.mk 7 .NULL) ⟨fun _ _ => 0⟩).1 = EPERM ∧
      (secure_vnode_check_deleteextattr
        (secure_vnode_check_open [] (.mk 7 .NULL) ⟨fun _ _ => 0⟩).2 (.mk 7 .NULL)
        ⟨fun _ _ => 0⟩ EXTATTR_NAMESPACE_USER (some "secure")).1 = EPERM) ∧
    ((secure_vnode_check_open [] (.mk 7 .NULL) ⟨fun _ _ => ENOATTR⟩).1 = 0 ∧
      (secure_vnode_check_deleteextattr
        (secure_vnode_check_open [] (.mk 7 .NULL) ⟨fun _ _ => ENOATTR⟩).2 (.mk 7 .NULL)
        ⟨fun _ _ => 0⟩ EXTATTR_NAMESPACE_USER (some "secure")).1 = 0) :=
  ⟨(taint_by_proxy [] (.mk 7 .NULL) ⟨fun _ _ => 0⟩ ⟨fun _ _ => 0⟩ rfl).1 rfl,
   (taint_by_proxy [] (.mk 7 .NULL) ⟨fun _ _ => 0⟩ ⟨fun _ _ => ENOATTR⟩ rfl).2
      (by decide) (by intro q _ te hte; simp at hte)⟩

/-- C13, unmarked files are unrestricted: on a file where the marker is absent,
`secure_vnode_check_open` returns 0 and `secure_vnode_check_deleteextattr` for namespace
USER and name "secure" returns 0, for every list and every process, tainted lineage or
not. -/
theorem unmarked_file_unrestricted (taint_head : List taint_entry) (P : proc) (F : vnode)
    (hF : F.vn_extattr_get ATTR_NAMESPACE ATTR_NAME ≠ 0) :
    (secure_vnode_check_open taint_head P F).1 = 0 ∧
      (secure_vnode_check_deleteextattr taint_head P F EXTATTR_NAMESPACE_USER
        (some "secure")).1 = 0 := by
  constructor
  · rw [secure_vnode_check_open_of_absent _ _ _ hF]
  · exact secure_vnode_check_deleteextattr_fst_of_absent _ _ _ _ _ hF

/-- C13 at a concrete input: process 8 is in the list and its parent 7 too. -/
theorem unmarked_file_unrestricted_witness :
    (secure_vnode_check_open [⟨8⟩, ⟨7⟩] (.mk 8 (.ptr (.mk 7 .NULL)))
        ⟨fun _ _ => ENOATTR⟩).1 = 0 ∧
      (secure_vnode_check_deleteextattr [⟨8⟩, ⟨7⟩] (.mk 8 (.ptr (.mk 7 .NULL)))
        ⟨fun _ _ => ENOATTR⟩ EXTATTR_NAMESPACE_USER (some "secure")).1 = 0 :=
  unmarked_file_unrestricted [⟨8⟩, ⟨7⟩] (.mk 8 (.ptr (.mk 7 .NULL)))
    ⟨fun _ _ => ENOATTR⟩ (by decide)

/-- C14, the ancestry walk is exact and total: `proc_or_ancestor_is_tainted` is a total
function on parent chains; it returns true exactly when the starting process or a process
reached through `p_pptr` links has its pid in the list. It returns false on `NULL`, the
answer of `proc_is_tainted` on a process with no parent, and false when no process of the
chain has an entry. -/
theorem ancestry_walk_exact (taint_head : List taint_entry) (pp : proc_ptr) :
    (proc_or_ancestor_is_tainted taint_head pp = true ↔
      ∃ q ∈ lineage pp, ∃ te ∈ taint_head, te.pid = q.p_pid) ∧
    proc_or_ancestor_is_tainted taint_head .NULL = false ∧
    (∀ pid : Int, proc_or_ancestor_is_tainted taint_head (.ptr (.mk pid .NULL))
      = proc_is_tainted taint_head (.mk pid .NULL)) ∧
    ((∀ q ∈ lineage pp, ∀ te ∈ taint_head, te.pid ≠ q.p_pid) →
      proc_or_ancestor_is_tainted taint_head pp = false) := by
  refine ⟨?_, rfl, ?_, (proc_or_ancestor_is_tainted_eq_false_iff taint_head pp).mpr⟩
  · rw [proc_or_ancestor_is_tainted_iff]
    constructor
    · rintro ⟨q, hq, ht⟩
      exact ⟨q, hq, (proc_is_tainted_iff_mem _ _).mp ht⟩
    · rintro ⟨q, hq, ht⟩
      exact ⟨q, hq, (proc_is_tainted_iff_mem _ _).mpr ht⟩
  · intro pid
    by_cases h : proc_is_tainted taint_head (.mk pid .NULL) = true
    · simp [proc_or_ancestor_is_tainted, h]
    · simp [proc_or_ancestor_is_tainted, h]

/-- C15, a failed attribute query counts as absent: `vnode_has_secure` is true exactly when
the query returns 0; when it returns any non-zero error code, `secure_vnode_check_open`
returns 0 with the list unchanged and `secure_vnode_check_deleteextattr` returns 0 for
every namespace and name, whatever the taint of the lineage. -/
theorem query_failure_is_absent (taint_head : List taint_entry) (curproc : proc) (vp : vnode)
    (attrnamespace : Int) (name : Option String)
    (herr : vp.vn_extattr_get ATTR_NAMESPACE ATTR_NAME ≠ 0) :
    (∀ v : vnode, vnode_has_secure v = true ↔ v.vn_extattr_get ATTR_NAMESPACE ATTR_NAME = 0) ∧
      vnode_has_secure vp = false ∧
      secure_vnode_check_open taint_head curproc vp = (0, taint_head) ∧
      (secure_vnode_check_deleteextattr taint_head curproc vp attrnamespace name).1 = 0 := by
  refine ⟨vnode_has_secure_iff, ?_, secure_vnode_check_open_of_absent _ _ _ herr,
    secure_vnode_check_deleteextattr_fst_of_absent _ _ _ _ _ herr⟩
  rw [← Bool.not_eq_true, vnode_has_secure_iff]
  exact herr

/-- C15 at a concrete input: the query fails with `EPERM`, not with `ENOATTR`, and the
caller is tainted. -/
theorem query_failure_is_absent_witness :
    (∀ v : vnode, vnode_has_secure v = true ↔ v.vn_extattr_get ATTR_NAMESPACE ATTR_NAME = 0) ∧
      vnode_has_secure ⟨fun _ _ => EPERM⟩ = false ∧
      secure_vnode_check_open [⟨7⟩] (.mk 7 .NULL) ⟨fun _ _ => EPERM⟩ = (0, [⟨7⟩]) ∧
      (secure_vnode_check_deleteextattr [⟨7⟩] (.mk 7 .NULL) ⟨fun _ _ => EPERM⟩
        EXTATTR_NAMESPACE_USER (some "secure")).1 = 0 :=
  query_failure_is_absent [⟨7⟩] (.mk 7 .NULL) ⟨fun _ _ => EPERM⟩ EXTATTR_NAMESPACE_USER
    (some "secure") (by decide)

/-- C16, membership is keyed by pid alone: `proc_is_tainted` (a function of the list that
returns only the answer, the list is not written) is true exactly when some entry has the
pid of `p`; a process `q` with the same pid gets the same answer on every list, and after
`proc_mark_tainted` for `p` the process `q` is reported tainted. -/
theorem membership_keyed_by_pid (taint_head : List taint_entry) (p q : proc)
    (hpid : q.p_pid = p.p_pid) :
    (proc_is_tainted taint_head p = true ↔ ∃ te ∈ taint_head, te.pid = p.p_pid) ∧
      (∀ r : List taint_entry, proc_is_tainted r q = proc_is_tainted r p) ∧
      proc_is_tainted (proc_mark_tainted taint_head p) q = true := by
  refine ⟨proc_is_tainted_iff_mem _ _, fun r => proc_is_tainted_congr_pid r q p hpid, ?_⟩
  rw [proc_is_tainted_congr_pid _ q p hpid]
  exact proc_mark_tainted_is_tainted _ _

/-- C16 at a concrete input: pid 7 is marked for a process whose parent is 1; another
process with pid 7 and parent 2 is reported tainted. -/
theorem membership_keyed_by_pid_witness :
    (proc_is_tainted [] (.mk 7 (.ptr (.mk 1 .NULL))) = true ↔
        ∃ te ∈ ([] : List taint_entry), te.pid = (proc.mk 7 (.ptr (.mk 1 .NULL))).p_pid) ∧
      (∀ r : List taint_entry, proc_is_tainted r (.mk 7 (.ptr (.mk 2 .NULL)))
        = proc_is_tainted r (.mk 7 (.ptr (.mk 1 .NULL)))) ∧
      proc_is_tainted (proc_mark_tainted [] (.mk 7 (.ptr (.mk 1 .NULL))))
        (.mk 7 (.ptr (.mk 2 .NULL))) = true :=
  membership_keyed_by_pid [] (.mk 7 (.ptr (.mk 1 .NULL))) (.mk 7 (.ptr (.mk 2 .NULL))) rfl

/-- C17, the delete check never writes the list: for every list, process, file, namespace
and name, the list after `secure_vnode_check_deleteextattr` is the list before it, whether
the call returns 0 or `EPERM` (both happen); `secure_vnode_check_open` does add an entry,
as on the empty list for process 7 and a marked file. -/
theorem delete_check_keeps_list :
    (∀ (taint_head : List taint_entry) (curproc : proc) (vp : vnode) (attrnamespace : Int)
        (name : Option String),
      (secure_vnode_check_deleteextattr taint_head curproc vp attrnamespace name).2
        = taint_head) ∧
    secure_vnode_check_deleteextattr [⟨7⟩] (.mk 7 .NULL) ⟨fun _ _ => 0⟩
      EXTATTR_NAMESPACE_USER (some "secure") = (EPERM, [⟨7⟩]) ∧
    secure_vnode_check_deleteextattr [⟨7⟩] (.mk 9 .NULL) ⟨fun _ _ => 0⟩
      EXTATTR_NAMESPACE_USER (some "secure") = (0, [⟨7⟩]) ∧
    secure_vnode_check_open [] (.mk 7 .NULL) ⟨fun _ _ => 0⟩ = (EPERM, [⟨7⟩]) :=
  ⟨secure_vnode_check_deleteextattr_snd, by decide, by decide, by decide⟩

/-- C14 at concrete inputs: the walk from process 9, grandchild of the tainted process 7,
returns true; the walk from process 9 with parent 8 on a list holding only pid 5 returns
false. -/
theorem ancestry_walk_exact_witness :
    proc_or_ancestor_is_tainted [⟨7⟩]
        (.ptr (.mk 9 (.ptr (.mk 8 (.ptr (.mk 7 .NULL)))))) = true ∧
      proc_or_ancestor_is_tainted [⟨5⟩] (.ptr (.mk 9 (.ptr (.mk 8 .NULL)))) = false :=
  ⟨(ancestry_walk_exact [⟨7⟩] (.ptr (.mk 9 (.ptr (.mk 8 (.ptr (.mk 7 .NULL))))))).1.mpr
      ⟨.mk 7 .NULL,
        List.mem_cons_of_mem _ (List.mem_cons_of_mem _ (List.mem_cons_self _ _)),
        ⟨7⟩, List.mem_cons_self _ _, rfl⟩,
   (ancestry_walk_exact [⟨5⟩] (.ptr (.mk 9 (.ptr (.mk 8 .NULL))))).2.2.2
      (by
        intro q hq te hte
        have hte5 : te = ⟨5⟩ := by simpa using hte
        subst hte5
        have hq' : q = .mk 9 (.ptr (.mk 8 .NULL)) ∨ q = .mk 8 .NULL := by
          simpa [lineage] using hq
        rcases hq' with rfl | rfl <;> decide)⟩

theorem run_calls_entry_has_open (calls : List hook_call)
    (hcalls : ∀ c ∈ calls, c.is_check_hook = true) :
    ∀ te ∈ run_calls calls [], ∃ (pre post : List hook_call) (curproc : proc) (vp : vnode),
      calls = pre ++ hook_call.check_open curproc vp :: post ∧
      curproc.p_pid = te.pid ∧
      vp.vn_extattr_get ATTR_NAMESPACE ATTR_NAME = 0 ∧
      (secure_vnode_check_open (run_calls pre []) curproc vp).1 = EPERM := by
  induction calls using List.reverseRecOn with
  | nil =>
    intro te hte
    simp [run_calls] at hte
  | append_singleton l a ih =>
    have hl : ∀ c ∈ l, c.is_check_hook = true :=
      fun c hc => hcalls c (List.mem_append_left _ hc)
    have ha : a.is_check_hook = true :=
      hcalls a (List.mem_append_right _ (List.mem_singleton_self a))
    have hold : ∀ te ∈ run_calls l [],
        ∃ (pre post : List hook_call) (curproc : proc) (vp : vnode),
          l ++ [a] = pre ++ hook_call.check_open curproc vp :: post ∧
          curproc.p_pid = te.pid ∧
          vp.vn_extattr_get ATTR_NAMESPACE ATTR_NAME = 0 ∧
          (secure_vnode_check_open (run_calls pre []) curproc vp).1 = EPERM := by
      intro te hte
      obtain ⟨pre, post, curproc, vp, hsplit, hpid, hmark, hret⟩ := ih hl te hte
      exact ⟨pre, post ++ [a], curproc, vp, by simp [hsplit], hpid, hmark, hret⟩
    intro te hte
    rw [run_calls_append_singleton] at hte
    cases a with
    | check_open curproc vp =>
      by_cases hmark : vp.vn_extattr_get ATTR_NAMESPACE ATTR_NAME = 0
      · have hopen := secure_vnode_check_open_of_present (run_calls l []) curproc vp hmark
        simp only [hook_call.apply, hopen] at hte
        by_cases ht : proc_is_tainted (run_calls l []) curproc = true
        · rw [proc_mark_tainted_of_tainted _ _ ht] at hte
          exact hold te hte
        · have hf : proc_is_tainted (run_calls l []) curproc = false := by simpa using ht
          rw [proc_mark_tainted_of_clean _ _ hf, List.mem_cons] at hte
          rcases hte with hnew | hte
          · refine ⟨l, [], curproc, vp, rfl, ?_, hmark, ?_⟩
            · rw [hnew]
            · rw [hopen]
          · exact hold te hte
      · have hopen := secure_vnode_check_open_of_absent (run_calls l []) curproc vp hmark
        simp only [hook_call.apply, hopen] at hte
        exact hold te hte
    | check_deleteextattr curproc vp ns name =>
      simp only [hook_call.apply, secure_vnode_check_deleteextattr_snd] at hte
      exact hold te hte
    | mark_tainted p => simp [hook_call.is_check_hook] at ha
    | policy_destroy => simp [hook_call.is_check_hook] at ha

/-- C18, no spurious taint: after any sequential sequence of the two check hooks started
on the empty list, every entry of the list has the pid of the current process of an
earlier `secure_vnode_check_open` call in the sequence, made on a file carrying the
marker, which returned `EPERM`; and a `secure_vnode_check_open` call by `P` leaves the
answer of `proc_is_tainted` unchanged for every process whose pid is not the pid of `P`. -/
theorem no_spurious_taint (calls : List hook_call)
    (hcalls : ∀ c ∈ calls, c.is_check_hook = true) :
    (∀ te ∈ run_calls calls [], ∃ (pre post : List hook_call) (curproc : proc) (vp : vnode),
      calls = pre ++ hook_call.check_open curproc vp :: post ∧
      curproc.p_pid = te.pid ∧
      vp.vn_extattr_get ATTR_NAMESPACE ATTR_NAME = 0 ∧
      (secure_vnode_check_open (run_calls pre []) curproc vp).1 = EPERM) ∧
    (∀ (taint_head : List taint_entry) (P : proc) (vp : vnode) (q : proc),
      q.p_pid ≠ P.p_pid →
      proc_is_tainted (secure_vnode_check_open taint_head P vp).2 q
        = proc_is_tainted taint_head q) :=
  ⟨run_calls_entry_has_open calls hcalls,
   fun taint_head P vp q h => secure_vnode_check_open_other taint_head P vp q h⟩

/-- C18 at a concrete input: process 8 opens an unmarked file, process 7 opens a marked
file, a child of 7 asks to delete the marker; the list then holds pid 7 only. -/
theorem no_spurious_taint_witness :
    run_calls
        [.check_open (.mk 8 .NULL) ⟨fun _ _ => ENOATTR⟩,
         .check_open (.mk 7 .NULL) ⟨fun _ _ => 0⟩,
         .check_deleteextattr (.mk 9 (.ptr (.mk 7 .NULL))) ⟨fun _ _ => 0⟩
           EXTATTR_NAMESPACE_USER (some "secure")] [] = [⟨7⟩] ∧
    ((∀ te ∈ run_calls
        [.check_open (.mk 8 .NULL) ⟨fun _ _ => ENOATTR⟩,
         .check_open (.mk 7 .NULL) ⟨fun _ _ => 0⟩,
         .check_deleteextattr (.mk 9 (.ptr (.mk 7 .NULL))) ⟨fun _ _ => 0⟩
           EXTATTR_NAMESPACE_USER (some "secure")] [],
      ∃ (pre post : List hook_call) (curproc : proc) (vp : vnode),
        [hook_call.check_open (.mk 8 .NULL) ⟨fun _ _ => ENOATTR⟩,
         .check_open (.mk 7 .NULL) ⟨fun _ _ => 0⟩,
         .check_deleteextattr (.mk 9 (.ptr (.mk 7 .NULL))) ⟨fun _ _ => 0⟩
           EXTATTR_NAMESPACE_USER (some "secure")]
          = pre ++ hook_call.check_open curproc vp :: post ∧
        curproc.p_pid = te.pid ∧
        vp.vn_extattr_get ATTR_NAMESPACE ATTR_NAME = 0 ∧
        (secure_vnode_check_open (run_calls pre []) curproc vp).1 = EPERM) ∧
    (∀ (taint_head : List taint_entry) (P : proc) (vp : vnode) (q : proc),
      q.p_pid ≠ P.p_pid →
      proc_is_tainted (secure_vnode_check_open taint_head P vp).2 q
        = proc_is_tainted taint_head q)) :=
  ⟨by decide,
   no_spurious_taint
    [.check_open (.mk 8 .NULL) ⟨fun _ _ => ENOATTR⟩,
     .check_open (.mk 7 .NULL) ⟨fun _ _ => 0⟩,
     .check_deleteextattr (.mk 9 (.ptr (.mk 7 .NULL))) ⟨fun _ _ => 0⟩
       EXTATTR_NAMESPACE_USER (some "secure")]
    (by
      intro c hc
      simp only [List.mem_cons, List.mem_singleton, List.not_mem_nil, or_false] at hc
      rcases hc with rfl | rfl | rfl <;> rfl)⟩

end MacSecure
